import Mathlib

/-!
Shallow embedding of the roomify UI components:

* `src/components/Upload.tsx` — stateful upload widget with validation, a
  timer-driven progress simulation, and a delayed completion callback.
* `src/unnamed/part_000` — the `Button` component composing a CSS class name.

React component state is embedded as an explicit record `UploadState`;
browser/React events (file selection, `FileReader#onload`, interval ticks,
timeout firing, drag events, unmount) are an inductive `UEvent` with a step
function `uStep`.  Modelling conventions, each stated at the definition it
concerns: event handlers of an unmounted component do not fire, and a state
update dispatched to an unmounted component is discarded by React (its
updater never runs).
-/

/-- MIME type allow-list.  Modelled from the spec: the constants module
`src/lib/constants` is absent from the snapshot; the spec fixes the
allow-list to JPEG and PNG. -/
def ALLOWED_IMAGE_TYPES : List String := ["image/jpeg", "image/png"]

/-- Maximum upload size.  Modelled from the spec: the constants module is
absent; the spec fixes the ceiling at 50 MB. -/
def MAX_UPLOAD_SIZE_BYTES : Nat := 50 * 1024 * 1024

/-- Timer configuration.  Modelled from the spec: the numeric values of
`PROGRESS_STEP`, `PROGRESS_INTERVAL_MS` and `REDIRECT_DELAY_MS` live in the
absent constants module, and the spec requires them to be configurable named
parameters, so they are parameters of the model. -/
structure UploadConfig where
  PROGRESS_STEP : Nat
  PROGRESS_INTERVAL_MS : Nat
  REDIRECT_DELAY_MS : Nat
deriving DecidableEq

/-- A browser `File`: name, MIME type, size in bytes, and content bytes. -/
structure FileData where
  name : String
  mimeType : String
  size : Nat
  content : List Nat
deriving DecidableEq

/-- The base64 alphabet. -/
def base64Table : List Char :=
  "ABCDEFGHIJKLMNOPQRSTUVWXYZabcdefghijklmnopqrstuvwxyz0123456789+/".toList

/-- Character for a 6-bit group. -/
def b64c (n : Nat) : Char := base64Table.getD n '='

/-- Base64 encoding of a byte list.  Modelled from the spec: the encoding is
performed by the browser's `FileReader.readAsDataURL`, not by repository
code; this is the standard RFC 4648 encoding it produces. -/
def base64Encode : List Nat → String
  | [] => ""
  | [a] =>
    String.mk [b64c (a % 256 / 4), b64c (a % 4 * 16), '=', '=']
  | [a, b] =>
    String.mk [b64c (a % 256 / 4), b64c (a % 4 * 16 + b % 256 / 16),
      b64c (b % 16 * 4), '=']
  | a :: b :: c :: rest =>
    String.mk [b64c (a % 256 / 4), b64c (a % 4 * 16 + b % 256 / 16),
      b64c (b % 16 * 4 + c % 256 / 64), b64c (c % 64)] ++ base64Encode rest

/-- The data URI delivered by `FileReader.readAsDataURL`:
`data:<mime>;base64,<base64 of the bytes>`. -/
def encodeDataURL (f : FileData) : String :=
  "data:" ++ f.mimeType ++ ";base64," ++ base64Encode f.content

/-- The error message for a disallowed MIME type (Upload.tsx line 55). -/
def typeErrorMsg : String := "Only JPG and PNG images are allowed."

/-- The error message for an oversized file (Upload.tsx line 60). -/
def sizeErrorMsg : String := "File size exceeds the maximum allowed limit."

/-- State of one mounted `Upload` component instance.

React `useState` state: `file`, `progress`, `isDragging`, `error`.
Refs and environment: `intervalBase64` is `some b` when the repeating timer
created in `reader.onload` is live, `b` being the base64 string its closure
captured; `timeoutBase64` is `some (d, b)` when the one-shot redirect timeout
is pending with delay `d` and captured base64 `b`; `readerBase64` is `some b`
when a `FileReader` read is in flight and will deliver `b`; `mounted` is
whether the component is still mounted; `completed` records the arguments of
`onComplete` invocations, oldest first. -/
structure UploadState where
  file : Option FileData
  progress : Nat
  isDragging : Bool
  error : Option String
  intervalBase64 : Option String
  timeoutBase64 : Option (Nat × String)
  readerBase64 : Option String
  mounted : Bool
  completed : List String
deriving DecidableEq

/-- Initial state of a freshly mounted `Upload` (Upload.tsx lines 23-29). -/
def initState : UploadState :=
  { file := none, progress := 0, isDragging := false, error := none,
    intervalBase64 := none, timeoutBase64 := none, readerBase64 := none,
    mounted := true, completed := [] }

/-- `clearTimers` (Upload.tsx lines 32-41): cancel the repeating interval and
the pending one-shot timeout. -/
def clearTimers (s : UploadState) : UploadState :=
  { s with intervalBase64 := none, timeoutBase64 := none }

/-- `processFile` (Upload.tsx lines 50-92): authorization gate, type and size
validation, then acceptance (clear timers, store the file, reset progress,
start the asynchronous read). -/
def processFile (isSignedIn : Bool) (f : FileData) (s : UploadState) :
    UploadState :=
  if !isSignedIn then s
  else if !(ALLOWED_IMAGE_TYPES.contains f.mimeType) then
    { s with error := some typeErrorMsg }
  else if f.size > MAX_UPLOAD_SIZE_BYTES then
    { s with error := some sizeErrorMsg }
  else
    { (clearTimers { s with error := none }) with
      file := some f, progress := 0,
      readerBase64 := some (encodeDataURL f) }

/-- `reader.onload` (Upload.tsx lines 72-89): when the in-flight read
delivers, start the repeating interval whose closure captures the base64
result.  The ref assignment works whether or not the component is still
mounted. -/
def readerLoad (s : UploadState) : UploadState :=
  match s.readerBase64 with
  | none => s
  | some b =>
    { s with readerBase64 := none, intervalBase64 := some b }

/-- One firing of the repeating interval (Upload.tsx lines 75-88).  The
callback calls `setProgress` with an updater; React discards a state update
dispatched to an unmounted component, so the updater does not run when
`mounted` is false.  When it runs: if the previous progress is at least 100,
clear both timers, schedule the one-shot redirect timeout with
`REDIRECT_DELAY_MS`, and pin progress at 100; otherwise add
`PROGRESS_STEP`. -/
def tick (cfg : UploadConfig) (s : UploadState) : UploadState :=
  match s.intervalBase64 with
  | none => s
  | some b =>
    if !s.mounted then s
    else if s.progress ≥ 100 then
      { (clearTimers s) with
        timeoutBase64 := some (cfg.REDIRECT_DELAY_MS, b), progress := 100 }
    else
      { s with progress := s.progress + cfg.PROGRESS_STEP }

/-- Firing of the one-shot redirect timeout (Upload.tsx lines 80-82): invoke
the host-supplied `onComplete` with the captured base64.  A fired one-shot
cannot fire again. -/
def timeoutFire (s : UploadState) : UploadState :=
  match s.timeoutBase64 with
  | none => s
  | some p =>
    { s with timeoutBase64 := none, completed := s.completed ++ [p.2] }

/-- Unmount (Upload.tsx lines 44-48): the effect cleanup runs `clearTimers`,
then the component is gone. -/
def unmountStep (s : UploadState) : UploadState :=
  { (clearTimers s) with mounted := false }

/-- `onDragOver` (Upload.tsx lines 114-117): prevent default; set the
drag-active flag only when signed in. -/
def dragOver (isSignedIn : Bool) (s : UploadState) : UploadState :=
  if isSignedIn then { s with isDragging := true } else s

/-- `onDragLeave` (Upload.tsx line 118): clear the drag-active flag. -/
def dragLeave (s : UploadState) : UploadState :=
  { s with isDragging := false }

/-- `handleDrop` (Upload.tsx lines 100-107): prevent default, clear the
drag-active flag, and route a dropped file through `processFile`. -/
def dropFile (isSignedIn : Bool) (f : Option FileData) (s : UploadState) :
    UploadState :=
  match f with
  | none => { s with isDragging := false }
  | some g => processFile isSignedIn g { s with isDragging := false }

/-- Events delivered to one `Upload` instance by the browser event loop. -/
inductive UEvent where
  | process (isSignedIn : Bool) (f : FileData)
  | load
  | tick
  | fire
  | unmount
  | dragOver (isSignedIn : Bool)
  | dragLeave
  | drop (isSignedIn : Bool) (f : Option FileData)
deriving DecidableEq

/-- Event dispatch.  DOM handlers (`process`, `dragOver`, `dragLeave`,
`drop`) belong to the rendered element and cannot fire once the component is
unmounted; browser timers and the reader callback can. -/
def uStep (cfg : UploadConfig) (e : UEvent) (s : UploadState) : UploadState :=
  match e with
  | .process si f => if s.mounted then processFile si f s else s
  | .load => readerLoad s
  | .tick => tick cfg s
  | .fire => timeoutFire s
  | .unmount => unmountStep s
  | .dragOver si => if s.mounted then dragOver si s else s
  | .dragLeave => if s.mounted then dragLeave s else s
  | .drop si f => if s.mounted then dropFile si f s else s

/-- Run a list of events, oldest first. -/
def runEvents (cfg : UploadConfig) (evs : List UEvent) (s : UploadState) :
    UploadState :=
  evs.foldl (fun st e => uStep cfg e st) s

/-- The status icon (Upload.tsx lines 149-153): the check glyph exactly when
progress is 100, the image glyph otherwise. -/
inductive StatusIcon where
  | check
  | image
deriving DecidableEq

/-- Icon choice rendered while a file is selected (Upload.tsx line 149). -/
def statusIcon (progress : Nat) : StatusIcon :=
  if progress = 100 then .check else .image

/-- Status line rendered while a file is selected (Upload.tsx lines
161-163). -/
def statusText (progress : Nat) : String :=
  if progress < 100 then "Analyzing Floor Plan..." else "Redirecting..."

/-- Button variants (part_000 line 3). -/
inductive ButtonVariant where
  | primary
  | secondary
  | danger
deriving DecidableEq

/-- Button sizes (part_000 line 4). -/
inductive ButtonSize where
  | sm
  | md
  | lg
deriving DecidableEq

/-- The string a `ButtonVariant` interpolates as. -/
def variantName : ButtonVariant → String
  | .primary => "primary"
  | .secondary => "secondary"
  | .danger => "danger"

/-- The string a `ButtonSize` interpolates as. -/
def sizeName : ButtonSize → String
  | .sm => "sm"
  | .md => "md"
  | .lg => "lg"

/-- JavaScript `Array.prototype.join(" ")` on a string list. -/
def joinSpace : List String → String
  | [] => ""
  | [c] => c
  | c :: cs => c ++ " " ++ joinSpace cs

/-- `combinedClassName` (part_000 lines 22-30): the class list filtered by
truthiness and joined with single spaces.  An absent `className` behaves like
the filtered-out empty string.  Defaults per lines 15-17: variant `primary`,
size `md`, `fullWidth` false. -/
def combinedClassName (variant : ButtonVariant) (size : ButtonSize)
    (fullWidth : Bool) (className : Option String) : String :=
  joinSpace
    (["btn", "btn--" ++ variantName variant, "btn--" ++ sizeName size,
      if fullWidth then "btn--full-width" else "",
      className.getD ""].filter (fun c => c != ""))

/-- The state right after an accepted file's read delivers and the repeating
interval starts (acceptance from `initState` followed by `reader.onload`). -/
def loadedState (f : FileData) : UploadState :=
  { file := some f, progress := 0, isDragging := false, error := none,
    intervalBase64 := some (encodeDataURL f), timeoutBase64 := none,
    readerBase64 := none, mounted := true, completed := [] }

/-- Events that do not offer a new file to the component: everything except
`process` and `drop` of an actual file. -/
def benign : UEvent → Bool
  | .process _ _ => false
  | .drop _ (some _) => false
  | _ => true

/-- Invariant tying every timer, reader and completion record to the single
base64 string `c` of the one accepted file: any in-flight read, live
interval or pending timeout carries `c`, a pending timeout implies progress
is pinned at 100 with the interval stopped, and `onComplete` has been
invoked either never or exactly once with `c`, the latter only with
progress pinned at 100 and no timer outstanding. -/
def UploadInv (cfg : UploadConfig) (c : String) (s : UploadState) : Prop :=
  (∀ b, s.readerBase64 = some b → b = c) ∧
  (∀ b, s.intervalBase64 = some b → b = c ∧ s.readerBase64 = none) ∧
  (∀ p, s.timeoutBase64 = some p →
    p = (cfg.REDIRECT_DELAY_MS, c) ∧ s.progress = 100 ∧
    s.intervalBase64 = none ∧ s.readerBase64 = none) ∧
  (s.completed = [] ∨
    (s.completed = [c] ∧ s.progress = 100 ∧ s.timeoutBase64 = none ∧
      s.intervalBase64 = none ∧ s.readerBase64 = none))

/-- A PDF file, outside the MIME allow-list. -/
def pdfFile : FileData := ⟨"doc.pdf", "application/pdf", 4, [1, 2, 3, 4]⟩

/-- A PNG file one byte over the 50 MB ceiling. -/
def oversizePng : FileData := ⟨"big.png", "image/png", 52428801, [7]⟩

/-- A PDF file that is also over the size ceiling. -/
def oversizePdf : FileData := ⟨"big.pdf", "application/pdf", 52428801, []⟩

/-- A PNG file whose size is exactly the 50 MB ceiling. -/
def exactPng : FileData := ⟨"exact.png", "image/png", 52428800, [0]⟩

/-- A small accepted JPEG used by witnesses and counterexamples. -/
def sampleJpeg : FileData := ⟨"plan.jpg", "image/jpeg", 4, [1, 2, 3, 4]⟩

/-- A configuration whose step finishes the ramp in one advancing tick. -/
def demoConfig : UploadConfig := ⟨100, 100, 1500⟩

/-- A configuration whose progress step 3 does not divide 100. -/
def cexConfig : UploadConfig := ⟨3, 100, 1500⟩

/-- A configuration whose progress step 25 divides 100. -/
def divConfig : UploadConfig := ⟨25, 100, 1500⟩

/-- Acceptance shape of `processFile` for a signed-in caller and a valid file. -/
lemma processFile_accepts (f : FileData) (s : UploadState)
    (hty : ALLOWED_IMAGE_TYPES.contains f.mimeType = true)
    (hsz : f.size ≤ MAX_UPLOAD_SIZE_BYTES) :
    processFile true f s =
      { s with
        error := none
        intervalBase64 := none
        timeoutBase64 := none
        file := some f
        progress := 0
        readerBase64 := some (encodeDataURL f) } := by
  unfold processFile
  rw [hty]
  simp [clearTimers, Nat.not_lt.mpr hsz]

/-- Running no events changes nothing. -/
lemma runEvents_nil (cfg : UploadConfig) (s : UploadState) :
    runEvents cfg [] s = s := rfl

/-- Running `e :: evs` steps by `e` first. -/
lemma runEvents_cons (cfg : UploadConfig) (e : UEvent) (evs : List UEvent)
    (s : UploadState) :
    runEvents cfg (e :: evs) s = runEvents cfg evs (uStep cfg e s) := rfl

/-- Running concatenated event lists composes. -/
lemma runEvents_append (cfg : UploadConfig) (l1 l2 : List UEvent)
    (s : UploadState) :
    runEvents cfg (l1 ++ l2) s = runEvents cfg l2 (runEvents cfg l1 s) := by
  unfold runEvents
  exact List.foldl_append _ _ _ _

/-- Accepting a valid file from the initial state and letting the read
deliver produces `loadedState`. -/
lemma afterLoad_eq (cfg : UploadConfig) (f : FileData)
    (hty : ALLOWED_IMAGE_TYPES.contains f.mimeType = true)
    (hsz : f.size ≤ MAX_UPLOAD_SIZE_BYTES) :
    runEvents cfg [UEvent.process true f, UEvent.load] initState
      = loadedState f := by
  rw [runEvents_cons, runEvents_cons, runEvents_nil]
  rw [show uStep cfg (UEvent.process true f) initState
      = processFile true f initState from rfl]
  rw [processFile_accepts f initState hty hsz]
  rfl

/-- A tick with no live interval does nothing. -/
lemma tick_inactive (cfg : UploadConfig) (s : UploadState)
    (hi : s.intervalBase64 = none) : tick cfg s = s := by
  unfold tick
  rw [hi]

/-- A tick on a mounted component with progress below 100 adds the step. -/
lemma tick_advance (cfg : UploadConfig) (s : UploadState) (b : String)
    (hi : s.intervalBase64 = some b) (hm : s.mounted = true)
    (hp : s.progress < 100) :
    tick cfg s = { s with progress := s.progress + cfg.PROGRESS_STEP } := by
  unfold tick
  rw [hi, hm]
  simp [Nat.not_le.mpr hp]

/-- A tick on a mounted component with progress at least 100 stops the
interval, schedules the redirect timeout, and pins progress at 100. -/
lemma tick_pin (cfg : UploadConfig) (s : UploadState) (b : String)
    (hi : s.intervalBase64 = some b) (hm : s.mounted = true)
    (hp : 100 ≤ s.progress) :
    tick cfg s =
      { s with
        intervalBase64 := none
        timeoutBase64 := some (cfg.REDIRECT_DELAY_MS, b)
        progress := 100 } := by
  unfold tick
  rw [hi, hm]
  simp [clearTimers, hp, hm]

/-- While the ramp stays within 100, `n` ticks add `n` steps and change
nothing else. -/
lemma run_ticks_linear (cfg : UploadConfig) (n : Nat) :
    ∀ (s : UploadState) (b : String), s.intervalBase64 = some b →
      s.mounted = true → 0 < cfg.PROGRESS_STEP →
      s.progress + n * cfg.PROGRESS_STEP ≤ 100 →
      runEvents cfg (List.replicate n UEvent.tick) s
        = { s with progress := s.progress + n * cfg.PROGRESS_STEP } := by
  induction n with
  | zero =>
    intro s b hi hm hstep hle
    simp [runEvents]
  | succ k ih =>
    intro s b hi hm hstep hle
    have hsm : (k + 1) * cfg.PROGRESS_STEP
        = k * cfg.PROGRESS_STEP + cfg.PROGRESS_STEP := Nat.succ_mul k _
    have hone : 1 ≤ (k + 1) * cfg.PROGRESS_STEP :=
      Nat.one_le_iff_ne_zero.mpr (by positivity)
    have hp : s.progress < 100 := by omega
    rw [List.replicate_succ, runEvents_cons]
    rw [show uStep cfg UEvent.tick s = tick cfg s from rfl]
    rw [tick_advance cfg s b hi hm hp]
    rw [ih { s with progress := s.progress + cfg.PROGRESS_STEP } b hi hm hstep
      (by simpa using by omega)]
    have harith : s.progress + cfg.PROGRESS_STEP + k * cfg.PROGRESS_STEP
        = s.progress + (k + 1) * cfg.PROGRESS_STEP := by omega
    simp [harith]

/-- With no live interval, ticks change nothing. -/
lemma run_ticks_stable (cfg : UploadConfig) (n : Nat) (s : UploadState)
    (hi : s.intervalBase64 = none) :
    runEvents cfg (List.replicate n UEvent.tick) s = s := by
  induction n with
  | zero => rfl
  | succ k ih =>
    rw [List.replicate_succ, runEvents_cons,
      show uStep cfg UEvent.tick s = tick cfg s from rfl,
      tick_inactive cfg s hi, ih]

/-- After unmount (mounted false, one-shot cancelled), no single event
remounts, schedules the one-shot, touches the React state, or invokes the
completion callback. -/
lemma post_unmount_preserved (cfg : UploadConfig) (e : UEvent)
    (s : UploadState) (hm : s.mounted = false)
    (ht : s.timeoutBase64 = none) :
    (uStep cfg e s).mounted = false ∧
    (uStep cfg e s).timeoutBase64 = none ∧
    (uStep cfg e s).file = s.file ∧
    (uStep cfg e s).progress = s.progress ∧
    (uStep cfg e s).isDragging = s.isDragging ∧
    (uStep cfg e s).error = s.error ∧
    (uStep cfg e s).completed = s.completed := by
  cases e with
  | process si f => simp [uStep, hm, ht]
  | load =>
    cases hr : s.readerBase64 <;> simp [uStep, readerLoad, hr, hm, ht]
  | tick =>
    cases hi : s.intervalBase64 <;> simp [uStep, tick, hi, hm, ht]
  | fire => simp [uStep, timeoutFire, ht, hm]
  | unmount => simp [uStep, unmountStep, clearTimers, hm, ht]
  | dragOver si => simp [uStep, hm, ht]
  | dragLeave => simp [uStep, hm, ht]
  | drop si f => simp [uStep, hm, ht]

/-- After unmount, no event sequence touches the React state or invokes the
completion callback. -/
lemma post_unmount_run (cfg : UploadConfig) (evs : List UEvent) :
    ∀ s : UploadState, s.mounted = false → s.timeoutBase64 = none →
      (runEvents cfg evs s).mounted = false ∧
      (runEvents cfg evs s).timeoutBase64 = none ∧
      (runEvents cfg evs s).file = s.file ∧
      (runEvents cfg evs s).progress = s.progress ∧
      (runEvents cfg evs s).isDragging = s.isDragging ∧
      (runEvents cfg evs s).error = s.error ∧
      (runEvents cfg evs s).completed = s.completed := by
  induction evs with
  | nil => intro s hm ht; exact ⟨hm, ht, rfl, rfl, rfl, rfl, rfl⟩
  | cons e evs ih =>
    intro s hm ht
    obtain ⟨h1, h2, h3, h4, h5, h6, h7⟩ := post_unmount_preserved cfg e s hm ht
    obtain ⟨g1, g2, g3, g4, g5, g6, g7⟩ := ih (uStep cfg e s) h1 h2
    rw [runEvents_cons]
    exact ⟨g1, g2, g3.trans h3, g4.trans h4, g5.trans h5, g6.trans h6,
      g7.trans h7⟩

/-- Every event that does not offer a new file preserves `UploadInv`. -/
lemma inv_step (cfg : UploadConfig) (c : String) (e : UEvent)
    (s : UploadState) (hb : benign e = true) (hInv : UploadInv cfg c s) :
    UploadInv cfg c (uStep cfg e s) := by
  obtain ⟨h1, h2, h3, h4⟩ := hInv
  cases e with
  | process si f => simp [benign] at hb
  | load =>
    show UploadInv cfg c (readerLoad s)
    cases hr : s.readerBase64 with
    | none =>
      unfold readerLoad
      rw [hr]
      exact ⟨h1, h2, h3, h4⟩
    | some b =>
      have hbc : b = c := h1 b hr
      have htnone : s.timeoutBase64 = none := by
        cases htt : s.timeoutBase64 with
        | none => rfl
        | some p =>
          obtain ⟨-, -, -, hrd⟩ := h3 p htt
          rw [hr] at hrd
          cases hrd
      have hcomp : s.completed = [] := by
        rcases h4 with h | ⟨-, -, -, -, hrd⟩
        · exact h
        · rw [hr] at hrd
          cases hrd
      unfold readerLoad
      rw [hr]
      refine ⟨?_, ?_, ?_, ?_⟩
      · intro b2 hb2
        exact absurd hb2 (by simp)
      · intro b2 hb2
        have hbb : b = b2 := by simpa using hb2
        exact ⟨hbb ▸ hbc, rfl⟩
      · intro p hp
        have hps : s.timeoutBase64 = some p := hp
        rw [htnone] at hps
        cases hps
      · left
        exact hcomp
  | tick =>
    show UploadInv cfg c (tick cfg s)
    cases hi : s.intervalBase64 with
    | none =>
      rw [tick_inactive cfg s hi]
      exact ⟨h1, h2, h3, h4⟩
    | some b =>
      obtain ⟨hbc, hrnone⟩ := h2 b hi
      cases hmnt : s.mounted with
      | false =>
        have hskip : tick cfg s = s := by
          unfold tick
          rw [hi, hmnt]
          rfl
        rw [hskip]
        exact ⟨h1, h2, h3, h4⟩
      | true =>
        have htnone : s.timeoutBase64 = none := by
          cases htt : s.timeoutBase64 with
          | none => rfl
          | some p =>
            obtain ⟨-, -, hint, -⟩ := h3 p htt
            rw [hint] at hi
            cases hi
        have hcomp : s.completed = [] := by
          rcases h4 with h | ⟨-, -, -, hint, -⟩
          · exact h
          · rw [hint] at hi
            cases hi
        by_cases hp : 100 ≤ s.progress
        · rw [tick_pin cfg s b hi hmnt hp]
          refine ⟨?_, ?_, ?_, ?_⟩
          · intro b2 hb2
            exact h1 b2 hb2
          · intro b2 hb2
            exact absurd hb2 (by simp)
          · intro p hp2
            have hpp : (cfg.REDIRECT_DELAY_MS, b) = p := by simpa using hp2
            refine ⟨?_, rfl, rfl, hrnone⟩
            rw [← hpp, hbc]
          · left
            exact hcomp
        · have hplt : s.progress < 100 := Nat.not_le.mp hp
          rw [tick_advance cfg s b hi hmnt hplt]
          refine ⟨?_, ?_, ?_, ?_⟩
          · intro b2 hb2
            exact h1 b2 hb2
          · intro b2 hb2
            have hbb : b = b2 := by simpa [hi] using hb2
            exact ⟨hbb ▸ hbc, hrnone⟩
          · intro p hp2
            have hps : s.timeoutBase64 = some p := hp2
            rw [htnone] at hps
            cases hps
          · left
            exact hcomp
  | fire =>
    show UploadInv cfg c (timeoutFire s)
    cases htt : s.timeoutBase64 with
    | none =>
      unfold timeoutFire
      rw [htt]
      exact ⟨h1, h2, h3, h4⟩
    | some p =>
      obtain ⟨hpc, hprog, hint, hrd⟩ := h3 p htt
      have hcomp : s.completed = [] := by
        rcases h4 with h | ⟨-, -, ht2, -, -⟩
        · exact h
        · rw [ht2] at htt
          cases htt
      unfold timeoutFire
      rw [htt]
      refine ⟨?_, ?_, ?_, ?_⟩
      · intro b2 hb2
        exact h1 b2 hb2
      · intro b2 hb2
        have hbs : s.intervalBase64 = some b2 := hb2
        rw [hint] at hbs
        cases hbs
      · intro p2 hp2
        exact absurd hp2 (by simp)
      · right
        refine ⟨?_, hprog, rfl, hint, hrd⟩
        show s.completed ++ [p.2] = [c]
        rw [hcomp, hpc]
        rfl
  | unmount =>
    show UploadInv cfg c (unmountStep s)
    refine ⟨?_, ?_, ?_, ?_⟩
    · intro b2 hb2
      exact h1 b2 hb2
    · intro b2 hb2
      exact absurd hb2 (by simp [unmountStep, clearTimers])
    · intro p hp2
      exact absurd hp2 (by simp [unmountStep, clearTimers])
    · rcases h4 with h | ⟨hc2, hprog, -, -, hrd⟩
      · left
        exact h
      · right
        exact ⟨hc2, hprog, rfl, rfl, hrd⟩
  | dragOver si =>
    show UploadInv cfg c (if s.mounted = true then dragOver si s else s)
    split
    · unfold dragOver
      split
      · exact ⟨h1, h2, h3, h4⟩
      · exact ⟨h1, h2, h3, h4⟩
    · exact ⟨h1, h2, h3, h4⟩
  | dragLeave =>
    show UploadInv cfg c (if s.mounted = true then dragLeave s else s)
    split
    · exact ⟨h1, h2, h3, h4⟩
    · exact ⟨h1, h2, h3, h4⟩
  | drop si f =>
    cases f with
    | some g => simp [benign] at hb
    | none =>
      show UploadInv cfg c (if s.mounted = true then dropFile si none s else s)
      split
      · exact ⟨h1, h2, h3, h4⟩
      · exact ⟨h1, h2, h3, h4⟩

/-- `UploadInv` is preserved along any run of benign events. -/
lemma inv_run (cfg : UploadConfig) (c : String) (evs : List UEvent) :
    ∀ s : UploadState, evs.all benign = true → UploadInv cfg c s →
      UploadInv cfg c (runEvents cfg evs s) := by
  induction evs with
  | nil =>
    intro s _ h
    exact h
  | cons e evs ih =>
    intro s hall hInv
    simp only [List.all_cons, Bool.and_eq_true] at hall
    obtain ⟨hb, hrest⟩ := hall
    rw [runEvents_cons]
    exact ih (uStep cfg e s) hrest (inv_step cfg c e s hb hInv)

/-- `UploadInv` holds right after a valid file is accepted from the initial
state. -/
lemma inv_initial (cfg : UploadConfig) (f : FileData)
    (hty : ALLOWED_IMAGE_TYPES.contains f.mimeType = true)
    (hsz : f.size ≤ MAX_UPLOAD_SIZE_BYTES) :
    UploadInv cfg (encodeDataURL f) (processFile true f initState) := by
  rw [processFile_accepts f initState hty hsz]
  refine ⟨?_, ?_, ?_, ?_⟩
  · intro b hb
    have hbb : encodeDataURL f = b := by simpa using hb
    exact hbb.symm
  · intro b hb
    exact absurd hb (by simp [initState])
  · intro p hp
    exact absurd hp (by simp [initState])
  · left
    rfl

/-- From `loadedState`, `n` ticks yield progress `n * PROGRESS_STEP` while
`n` is at most `100 / PROGRESS_STEP` (for a step dividing 100). -/
lemma run_ticks_linear_loaded (cfg : UploadConfig) (f : FileData)
    (hstep : 0 < cfg.PROGRESS_STEP) (hdvd : cfg.PROGRESS_STEP ∣ 100)
    (n : Nat) (hn : n ≤ 100 / cfg.PROGRESS_STEP) :
    runEvents cfg (List.replicate n UEvent.tick) (loadedState f)
      = { loadedState f with progress := n * cfg.PROGRESS_STEP } := by
  have hNmul : 100 / cfg.PROGRESS_STEP * cfg.PROGRESS_STEP = 100 :=
    Nat.div_mul_cancel hdvd
  have hmul : n * cfg.PROGRESS_STEP
      ≤ 100 / cfg.PROGRESS_STEP * cfg.PROGRESS_STEP :=
    Nat.mul_le_mul_right _ hn
  have hb : (loadedState f).progress + n * cfg.PROGRESS_STEP ≤ 100 := by
    simp only [loadedState]
    omega
  rw [run_ticks_linear cfg n (loadedState f) (encodeDataURL f) rfl rfl
    hstep hb]
  simp [loadedState]

/-- For a step dividing 100, one tick past `100 / PROGRESS_STEP` stops the
interval, schedules the redirect timeout, and pins progress at 100. -/
lemma run_ticks_pin_state (cfg : UploadConfig) (f : FileData)
    (hstep : 0 < cfg.PROGRESS_STEP) (hdvd : cfg.PROGRESS_STEP ∣ 100) :
    runEvents cfg (List.replicate (100 / cfg.PROGRESS_STEP + 1) UEvent.tick)
        (loadedState f)
      = { loadedState f with
          progress := 100
          intervalBase64 := none
          timeoutBase64 := some (cfg.REDIRECT_DELAY_MS, encodeDataURL f) } := by
  have hNmul : 100 / cfg.PROGRESS_STEP * cfg.PROGRESS_STEP = 100 :=
    Nat.div_mul_cancel hdvd
  rw [List.replicate_add, runEvents_append,
    run_ticks_linear_loaded cfg f hstep hdvd _ le_rfl, hNmul]
  rw [show runEvents cfg (List.replicate 1 UEvent.tick)
      { loadedState f with progress := 100 }
      = tick cfg { loadedState f with progress := 100 } from rfl]
  rw [tick_pin cfg { loadedState f with progress := 100 } (encodeDataURL f)
    rfl rfl (by simp)]

/-- For a step dividing 100, progress after `n` ticks from `loadedState` is
exactly `min (n * PROGRESS_STEP) 100`. -/
lemma progress_char (cfg : UploadConfig) (f : FileData)
    (hstep : 0 < cfg.PROGRESS_STEP) (hdvd : cfg.PROGRESS_STEP ∣ 100)
    (n : Nat) :
    (runEvents cfg (List.replicate n UEvent.tick) (loadedState f)).progress
      = min (n * cfg.PROGRESS_STEP) 100 := by
  have hNmul : 100 / cfg.PROGRESS_STEP * cfg.PROGRESS_STEP = 100 :=
    Nat.div_mul_cancel hdvd
  rcases le_or_lt n (100 / cfg.PROGRESS_STEP) with hn | hn
  · rw [run_ticks_linear_loaded cfg f hstep hdvd n hn]
    have hmul : n * cfg.PROGRESS_STEP
        ≤ 100 / cfg.PROGRESS_STEP * cfg.PROGRESS_STEP :=
      Nat.mul_le_mul_right _ hn
    show n * cfg.PROGRESS_STEP = min (n * cfg.PROGRESS_STEP) 100
    omega
  · obtain ⟨k, hk⟩ : ∃ k, n = (100 / cfg.PROGRESS_STEP + 1) + k :=
      ⟨n - (100 / cfg.PROGRESS_STEP + 1), by omega⟩
    subst hk
    rw [List.replicate_add, runEvents_append,
      run_ticks_pin_state cfg f hstep hdvd,
      run_ticks_stable cfg k _ rfl]
    have hge : 100 ≤ (100 / cfg.PROGRESS_STEP + 1 + k) * cfg.PROGRESS_STEP := by
      have hexp : (100 / cfg.PROGRESS_STEP + 1 + k) * cfg.PROGRESS_STEP
          = 100 / cfg.PROGRESS_STEP * cfg.PROGRESS_STEP
            + (1 + k) * cfg.PROGRESS_STEP := by ring
      omega
    show (100 : Nat) = min ((100 / cfg.PROGRESS_STEP + 1 + k)
      * cfg.PROGRESS_STEP) 100
    omega

/-- Claim C3: a file offered by an authorized caller whose MIME type is not
in the allow-list, or whose size exceeds the ceiling, makes `processFile`
set the corresponding error message and change nothing else: no file stored,
progress untouched, no timer and no read started, Analyzing not entered. -/
theorem reject_invalid_file (f : FileData) (s : UploadState) :
    (ALLOWED_IMAGE_TYPES.contains f.mimeType = false →
      processFile true f s = { s with error := some typeErrorMsg }) ∧
    (ALLOWED_IMAGE_TYPES.contains f.mimeType = true →
      f.size > MAX_UPLOAD_SIZE_BYTES →
      processFile true f s = { s with error := some sizeErrorMsg }) := by
  constructor
  · intro h
    unfold processFile
    rw [h]
    rfl
  · intro h h2
    unfold processFile
    rw [h]
    simp [h2]

/-- Witness for C3 at two concrete rejected files. -/
theorem reject_invalid_file_witness :
    ALLOWED_IMAGE_TYPES.contains pdfFile.mimeType = false ∧
    oversizePng.size > MAX_UPLOAD_SIZE_BYTES ∧
    processFile true pdfFile initState
      = { initState with error := some typeErrorMsg } ∧
    processFile true oversizePng initState
      = { initState with error := some sizeErrorMsg } :=
  ⟨by decide, by decide,
    (reject_invalid_file pdfFile initState).1 (by decide),
    (reject_invalid_file oversizePng initState).2 (by decide) (by decide)⟩

/-- Claim C9: validation is type-first.  A file that both has a disallowed
MIME type and exceeds the size ceiling gets the type-error message, not the
size-error message. -/
theorem type_error_first (f : FileData) (s : UploadState)
    (hty : ALLOWED_IMAGE_TYPES.contains f.mimeType = false)
    (hsz : f.size > MAX_UPLOAD_SIZE_BYTES) :
    processFile true f s = { s with error := some typeErrorMsg } := by
  clear hsz
  unfold processFile
  rw [hty]
  rfl

/-- Witness for C9 at a concrete file violating both checks. -/
theorem type_error_first_witness :
    ALLOWED_IMAGE_TYPES.contains oversizePdf.mimeType = false ∧
    oversizePdf.size > MAX_UPLOAD_SIZE_BYTES ∧
    processFile true oversizePdf initState
      = { initState with error := some typeErrorMsg } :=
  ⟨by decide, by decide,
    type_error_first oversizePdf initState (by decide) (by decide)⟩

/-- Claim C10: the size check is a strict inequality.  A file of an allowed
type whose size is at most the ceiling (in particular, exactly the ceiling)
is accepted and enters Analyzing: error cleared, timers cleared, file
stored, progress reset to 0, read started.  Only a strictly larger file is
rejected. -/
theorem size_check_strict (f : FileData) (s : UploadState)
    (hty : ALLOWED_IMAGE_TYPES.contains f.mimeType = true) :
    (f.size ≤ MAX_UPLOAD_SIZE_BYTES →
      processFile true f s =
        { s with
          error := none
          intervalBase64 := none
          timeoutBase64 := none
          file := some f
          progress := 0
          readerBase64 := some (encodeDataURL f) }) ∧
    (MAX_UPLOAD_SIZE_BYTES < f.size →
      processFile true f s = { s with error := some sizeErrorMsg }) := by
  constructor
  · intro h
    unfold processFile
    rw [hty]
    simp [clearTimers, Nat.not_lt.mpr h]
  · intro h
    unfold processFile
    rw [hty]
    simp [h]

/-- Witness for C10: the file at exactly the ceiling is accepted, the file
one byte over is rejected. -/
theorem size_check_strict_witness :
    ALLOWED_IMAGE_TYPES.contains exactPng.mimeType = true ∧
    exactPng.size ≤ MAX_UPLOAD_SIZE_BYTES ∧
    processFile true exactPng initState =
      { initState with
        error := none
        intervalBase64 := none
        timeoutBase64 := none
        file := some exactPng
        progress := 0
        readerBase64 := some (encodeDataURL exactPng) } ∧
    MAX_UPLOAD_SIZE_BYTES < oversizePng.size ∧
    processFile true oversizePng initState
      = { initState with error := some sizeErrorMsg } :=
  ⟨by decide, by decide,
    (size_check_strict exactPng initState (by decide)).1 (by decide),
    by decide,
    (size_check_strict oversizePng initState (by decide)).2 (by decide)⟩

/-- Claim C6: while `isSignedIn` is false, `processFile` leaves the state
completely unchanged (no error, no stored file, no progress change, no read),
a dragover never sets the drag-active flag, and a drop only clears the
drag-active flag before the same unauthorized acceptance check runs.  The
flag is consulted on each call, so each attempt re-checks it. -/
theorem unauthorized_attempts_ignored (f : FileData) (g : Option FileData)
    (s : UploadState) :
    processFile false f s = s ∧
    dragOver false s = s ∧
    dropFile false g s = { s with isDragging := false } := by
  refine ⟨by simp [processFile], by simp [dragOver], ?_⟩
  cases g <;> simp [dropFile, processFile]

/-- Claim C8: while a file is selected and progress is in the Analyzing or
Complete range (at most 100), the icon is the image glyph exactly when
progress is below 100 and the check glyph exactly when progress equals 100,
and the status line is one fixed literal below 100 and a different fixed
literal at 100. -/
theorem render_icon_and_text (p : Nat) (hp : p ≤ 100) :
    (statusIcon p = StatusIcon.image ↔ p < 100) ∧
    (statusIcon p = StatusIcon.check ↔ p = 100) ∧
    (statusText p = "Analyzing Floor Plan..." ↔ p < 100) ∧
    (statusText p = "Redirecting..." ↔ p = 100) := by
  by_cases h : p = 100
  · subst h; simp [statusIcon, statusText]
  · have hlt : p < 100 := Nat.lt_of_le_of_ne hp h
    simp [statusIcon, statusText, h, hlt]

/-- Witness for C8 at progress 100. -/
theorem render_icon_and_text_witness :
    (100 : Nat) ≤ 100 ∧
    ((statusIcon 100 = StatusIcon.image ↔ 100 < 100) ∧
      (statusIcon 100 = StatusIcon.check ↔ 100 = 100) ∧
      (statusText 100 = "Analyzing Floor Plan..." ↔ 100 < 100) ∧
      (statusText 100 = "Redirecting..." ↔ 100 = 100)) :=
  ⟨by decide, render_icon_and_text 100 (by decide)⟩

/-- Claim C7: for every variant, size, full-width flag and optional caller
class, `combinedClassName` is exactly the ordered, space-joined,
blank-filtered concatenation of the base class, the variant class, the size
class, the conditional full-width class and the caller class, with single
spaces and no doubled separators when optional classes are absent. -/
theorem button_class_composition (v : ButtonVariant) (sz : ButtonSize)
    (fw : Bool) (cn : Option String) :
    combinedClassName v sz fw cn =
      "btn btn--" ++ variantName v ++ " btn--" ++ sizeName sz ++
        (if fw then " btn--full-width" else "") ++
        (match cn with
          | none => ""
          | some c => if c = "" then "" else " " ++ c) := by
  cases cn with
  | none => cases v <;> cases sz <;> cases fw <;> rfl
  | some c =>
    by_cases hc : c = ""
    · subst hc; cases v <;> cases sz <;> cases fw <;> rfl
    · have hbne : (c != "") = true := by simpa using hc
      cases v <;> cases sz <;> cases fw <;>
          simp only [combinedClassName, variantName, sizeName, Option.getD,
            List.filter, hbne, if_neg hc] <;>
        rfl

/-- Claim C2: if the component is unmounted at any point, no later event
(reader delivery, interval tick, timeout firing, or any UI event) mutates
the React state (file, progress, drag flag, error) or invokes the
host-supplied completion callback: the unmount cleanup cancels the pending
timers, handlers of the unmounted component no longer fire, and a state
update dispatched by a surviving timer or by the interval started by a
still-pending file read is discarded by React. -/
theorem unmount_stops_all_effects (cfg : UploadConfig) (evs : List UEvent)
    (s : UploadState) :
    (runEvents cfg evs (uStep cfg UEvent.unmount s)).file = s.file ∧
    (runEvents cfg evs (uStep cfg UEvent.unmount s)).progress = s.progress ∧
    (runEvents cfg evs (uStep cfg UEvent.unmount s)).isDragging
      = s.isDragging ∧
    (runEvents cfg evs (uStep cfg UEvent.unmount s)).error = s.error ∧
    (runEvents cfg evs (uStep cfg UEvent.unmount s)).completed
      = s.completed := by
  obtain ⟨_, _, h3, h4, h5, h6, h7⟩ :=
    post_unmount_run cfg evs (uStep cfg UEvent.unmount s) rfl rfl
  exact ⟨h3, h4, h5, h6, h7⟩

/-- Claim C4: along any run after a valid file is accepted in which no other
file is offered, the completion callback is invoked at most once, always
with the accepted file's content as a base64 data URI; any pending one-shot
is the redirect timeout with the fixed `REDIRECT_DELAY_MS` delay and that
same payload; and the callback can only have fired with progress pinned at
100. -/
theorem onComplete_at_most_once (cfg : UploadConfig) (f : FileData)
    (hty : ALLOWED_IMAGE_TYPES.contains f.mimeType = true)
    (hsz : f.size ≤ MAX_UPLOAD_SIZE_BYTES) (evs : List UEvent)
    (hall : evs.all benign = true) :
    ((runEvents cfg evs (processFile true f initState)).completed = [] ∨
      (runEvents cfg evs (processFile true f initState)).completed
        = [encodeDataURL f]) ∧
    (∀ p, (runEvents cfg evs (processFile true f initState)).timeoutBase64
      = some p → p = (cfg.REDIRECT_DELAY_MS, encodeDataURL f)) ∧
    ((runEvents cfg evs (processFile true f initState)).completed ≠ [] →
      (runEvents cfg evs (processFile true f initState)).progress = 100) := by
  obtain ⟨h1, h2, h3, h4⟩ :=
    inv_run cfg (encodeDataURL f) evs (processFile true f initState) hall
      (inv_initial cfg f hty hsz)
  refine ⟨?_, ?_, ?_⟩
  · rcases h4 with h | ⟨hc, -, -, -, -⟩
    · left; exact h
    · right; exact hc
  · intro p hp
    exact (h3 p hp).1
  · intro hne
    rcases h4 with h | ⟨-, hprog, -, -, -⟩
    · exact absurd h hne
    · exact hprog

/-- Witness for C4 on a concrete accepted file and event run that fires the
callback. -/
theorem onComplete_at_most_once_witness :
    ALLOWED_IMAGE_TYPES.contains sampleJpeg.mimeType = true ∧
    sampleJpeg.size ≤ MAX_UPLOAD_SIZE_BYTES ∧
    [UEvent.load, UEvent.tick, UEvent.tick, UEvent.fire].all benign = true ∧
    (((runEvents demoConfig [UEvent.load, UEvent.tick, UEvent.tick,
        UEvent.fire] (processFile true sampleJpeg initState)).completed = [] ∨
      (runEvents demoConfig [UEvent.load, UEvent.tick, UEvent.tick,
        UEvent.fire] (processFile true sampleJpeg initState)).completed
        = [encodeDataURL sampleJpeg]) ∧
    (∀ p, (runEvents demoConfig [UEvent.load, UEvent.tick, UEvent.tick,
        UEvent.fire] (processFile true sampleJpeg initState)).timeoutBase64
      = some p → p = (demoConfig.REDIRECT_DELAY_MS,
        encodeDataURL sampleJpeg)) ∧
    ((runEvents demoConfig [UEvent.load, UEvent.tick, UEvent.tick,
        UEvent.fire] (processFile true sampleJpeg initState)).completed ≠ [] →
      (runEvents demoConfig [UEvent.load, UEvent.tick, UEvent.tick,
        UEvent.fire] (processFile true sampleJpeg initState)).progress
        = 100)) :=
  ⟨by decide, by decide, by decide,
    onComplete_at_most_once demoConfig sampleJpeg (by decide) (by decide)
      [UEvent.load, UEvent.tick, UEvent.tick, UEvent.fire] (by decide)⟩

/-- Claim C1, amended: for every accepted file and every positive progress
step that divides 100 evenly (so that ceiling (100 / step) equals
`100 / step`), after the file read completes each of the first
`100 / step` ticks adds the fixed step, progress reaches exactly 100 after
`100 / step` ticks, and the next tick — the first with progress at least
100 — stops the repeating timer, schedules the redirect timeout, and pins
progress at 100.  (As stated over all positive steps the claim fails: for a
step not dividing 100 the progress after ceiling (100 / step) ticks
overshoots 100, see the counterexample.) -/
theorem progress_tick_schedule (cfg : UploadConfig) (f : FileData)
    (hstep : 0 < cfg.PROGRESS_STEP) (hdvd : cfg.PROGRESS_STEP ∣ 100)
    (hty : ALLOWED_IMAGE_TYPES.contains f.mimeType = true)
    (hsz : f.size ≤ MAX_UPLOAD_SIZE_BYTES) :
    (∀ n, n ≤ 100 / cfg.PROGRESS_STEP →
      (runEvents cfg (List.replicate n UEvent.tick)
        (runEvents cfg [UEvent.process true f, UEvent.load]
          initState)).progress = n * cfg.PROGRESS_STEP) ∧
    (runEvents cfg (List.replicate (100 / cfg.PROGRESS_STEP) UEvent.tick)
      (runEvents cfg [UEvent.process true f, UEvent.load]
        initState)).progress = 100 ∧
    runEvents cfg (List.replicate (100 / cfg.PROGRESS_STEP + 1) UEvent.tick)
      (runEvents cfg [UEvent.process true f, UEvent.load] initState)
      = { loadedState f with
          progress := 100
          intervalBase64 := none
          timeoutBase64 := some (cfg.REDIRECT_DELAY_MS, encodeDataURL f) } := by
  rw [afterLoad_eq cfg f hty hsz]
  have hNmul : 100 / cfg.PROGRESS_STEP * cfg.PROGRESS_STEP = 100 :=
    Nat.div_mul_cancel hdvd
  refine ⟨?_, ?_, run_ticks_pin_state cfg f hstep hdvd⟩
  · intro n hn
    rw [run_ticks_linear_loaded cfg f hstep hdvd n hn]
  · rw [run_ticks_linear_loaded cfg f hstep hdvd _ le_rfl]
    exact hNmul

/-- Witness for the amended C1 with step 25. -/
theorem progress_tick_schedule_witness :
    0 < divConfig.PROGRESS_STEP ∧ divConfig.PROGRESS_STEP ∣ 100 ∧
    ALLOWED_IMAGE_TYPES.contains sampleJpeg.mimeType = true ∧
    sampleJpeg.size ≤ MAX_UPLOAD_SIZE_BYTES ∧
    ((∀ n, n ≤ 100 / divConfig.PROGRESS_STEP →
      (runEvents divConfig (List.replicate n UEvent.tick)
        (runEvents divConfig [UEvent.process true sampleJpeg, UEvent.load]
          initState)).progress = n * divConfig.PROGRESS_STEP) ∧
    (runEvents divConfig
      (List.replicate (100 / divConfig.PROGRESS_STEP) UEvent.tick)
      (runEvents divConfig [UEvent.process true sampleJpeg, UEvent.load]
        initState)).progress = 100 ∧
    runEvents divConfig
      (List.replicate (100 / divConfig.PROGRESS_STEP + 1) UEvent.tick)
      (runEvents divConfig [UEvent.process true sampleJpeg, UEvent.load]
        initState)
      = { loadedState sampleJpeg with
          progress := 100
          intervalBase64 := none
          timeoutBase64 := some (divConfig.REDIRECT_DELAY_MS,
            encodeDataURL sampleJpeg) }) :=
  ⟨by decide, by decide, by decide, by decide,
    progress_tick_schedule divConfig sampleJpeg (by decide) (by decide)
      (by decide) (by decide)⟩

/-- Counterexample to C1 as stated: with progress step 3,
ceiling (100 / 3) = 34 ticks after the read completes leave progress at
102, not exactly 100; it is pinned to 100 only one tick later. -/
theorem progress_not_exact_at_ceil_ticks :
    (runEvents cexConfig (List.replicate 34 UEvent.tick)
      (runEvents cexConfig [UEvent.process true sampleJpeg, UEvent.load]
        initState)).progress ≠ 100 := by decide

/-- Claim C5, amended: after a file is accepted, provided the fixed progress
step divides 100 evenly, progress is monotonically non-decreasing across
timer ticks — it rises in fixed steps to 100 and stays pinned there.  (As
stated over every execution the claim fails: with a step not dividing 100
the pinning tick lowers the overshot value back to 100, see the
counterexample.) -/
theorem progress_monotone_divisible (cfg : UploadConfig) (f : FileData)
    (hstep : 0 < cfg.PROGRESS_STEP) (hdvd : cfg.PROGRESS_STEP ∣ 100)
    (hty : ALLOWED_IMAGE_TYPES.contains f.mimeType = true)
    (hsz : f.size ≤ MAX_UPLOAD_SIZE_BYTES)
    (m n : Nat) (hmn : m ≤ n) :
    (runEvents cfg (List.replicate m UEvent.tick)
      (runEvents cfg [UEvent.process true f, UEvent.load]
        initState)).progress
      ≤ (runEvents cfg (List.replicate n UEvent.tick)
        (runEvents cfg [UEvent.process true f, UEvent.load]
          initState)).progress := by
  rw [afterLoad_eq cfg f hty hsz, progress_char cfg f hstep hdvd m,
    progress_char cfg f hstep hdvd n]
  exact min_le_min (Nat.mul_le_mul_right _ hmn) le_rfl

/-- Witness for the amended C5 with step 25 at ticks 2 and 6. -/
theorem progress_monotone_divisible_witness :
    0 < divConfig.PROGRESS_STEP ∧ divConfig.PROGRESS_STEP ∣ 100 ∧
    ALLOWED_IMAGE_TYPES.contains sampleJpeg.mimeType = true ∧
    sampleJpeg.size ≤ MAX_UPLOAD_SIZE_BYTES ∧ 2 ≤ 6 ∧
    (runEvents divConfig (List.replicate 2 UEvent.tick)
      (runEvents divConfig [UEvent.process true sampleJpeg, UEvent.load]
        initState)).progress
      ≤ (runEvents divConfig (List.replicate 6 UEvent.tick)
        (runEvents divConfig [UEvent.process true sampleJpeg, UEvent.load]
          initState)).progress :=
  ⟨by decide, by decide, by decide, by decide, by decide,
    progress_monotone_divisible divConfig sampleJpeg (by decide) (by decide)
      (by decide) (by decide) 2 6 (by decide)⟩

/-- Counterexample to C5 as stated: with progress step 3, progress after 35
ticks (100) is strictly below progress after 34 ticks (102) — a decrease
across a tick. -/
theorem progress_decreases_at_pin_tick :
    (runEvents cexConfig (List.replicate 35 UEvent.tick)
      (runEvents cexConfig [UEvent.process true sampleJpeg, UEvent.load]
        initState)).progress
      < (runEvents cexConfig (List.replicate 34 UEvent.tick)
        (runEvents cexConfig [UEvent.process true sampleJpeg, UEvent.load]
          initState)).progress := by decide
